import Mathlib

/-!
Verification of the AI resume analyzer LLM-orchestration core.

This file shallowly embeds the service layer of the resume analyzer:
the JSON decoding policy of the Ollama client (`ollamaService.ts`),
the skill/question normalizers, the experience/seniority computations
(`aiAnalysisService`), the behavioral/technical question generation
pipeline (`questionGeneratorService`), and the roadmap timeline
aggregation (`careerGuidanceService.ts`).

Modelling conventions:
- Decoded JSON values are `JsVal`; property access on a `null` value is the
  only JS TypeError the normalizers can hit, so fallible normalizers return
  `Except Unit`.
- Model calls are parameters of type `Except Unit α`: `.ok` carries the
  (already decoded) model reply, `.error ()` is an outright generation
  failure.
- `uuidv4` is modelled as an abstract generator `gen : Nat -> String`
  applied at the index of the record that needed a fresh identifier.
- Wall-clock time (`new Date()` used for open-ended date ranges) is a
  `today : Nat × Nat` parameter: (full year, zero-based month).
- JS `Date` parsing is modelled on the ISO `YYYY-MM` / `YYYY-MM-DD` shapes
  that the extraction prompts request (the code appends `-01` before
  parsing); engine-specific legacy date formats are out of scope, such
  strings simply fail to parse, which is also what standard JS gives for
  non-ISO garbage.
- The JSON grammar modelled by `jsonParse` covers objects, arrays, strings
  with the common escapes, integers and plain decimals, booleans and null;
  exponent literals and `\u` escapes are omitted. All theorems quantifying
  over `jsonParse` treat it abstractly, so this restriction only delimits
  the concrete witnesses.
-/

namespace ResumeAnalyzer

/-- A decoded JSON value, as produced by a successful `JSON.parse`. -/
inductive JsVal where
  | null : JsVal
  | bool : Bool → JsVal
  | num : ℚ → JsVal
  | str : String → JsVal
  | arr : List JsVal → JsVal
  | obj : List (String × JsVal) → JsVal
  deriving Repr

/-- JS truthiness of a decoded JSON value (`undefined` cannot occur in
decoded JSON; `NaN` cannot occur either). -/
def jsTruthy : JsVal → Bool
  | .null => false
  | .bool b => b
  | .num q => q != 0
  | .str s => s != ""
  | .arr _ => true
  | .obj _ => true

/-- JS property access `v[k]` for non-null `v`: `some` when the key is
present on an object, `none` (JS `undefined`) otherwise. Access on `null`
throws in JS and is handled at each call site. -/
def getField : JsVal → String → Option JsVal
  | .obj kvs, k => (kvs.find? (fun p => p.1 == k)).map (fun p => p.2)
  | _, _ => none

/-- The JS idiom `v[k] || dflt`: the field when present and truthy,
otherwise the default. -/
def fieldOr (v : JsVal) (k : String) (dflt : JsVal) : JsVal :=
  match getField v k with
  | some w => if jsTruthy w then w else dflt
  | none => dflt

/-- Whitespace skipped by the JSON grammar. -/
def isJsonWs (c : Char) : Bool :=
  c == ' ' || c == '\n' || c == '\t' || c == '\r'

/-- Drop leading JSON whitespace. -/
def skipWs : List Char → List Char
  | [] => []
  | c :: rest => if isJsonWs c then skipWs rest else c :: rest

/-- Numeric value of a digit run. -/
def digitsToNat (ds : List Char) : Nat :=
  ds.foldl (fun n c => n * 10 + (c.toNat - 48)) 0

/-- Parse the remainder of a JSON string literal (the opening quote already
consumed), handling the common escapes. -/
def parseJsonStr : List Char → List Char → Option (String × List Char)
  | '"' :: rest, acc => some (String.mk acc.reverse, rest)
  | '\\' :: c :: rest, acc =>
    match c with
    | '"' => parseJsonStr rest ('"' :: acc)
    | '\\' => parseJsonStr rest ('\\' :: acc)
    | '/' => parseJsonStr rest ('/' :: acc)
    | 'n' => parseJsonStr rest ('\n' :: acc)
    | 't' => parseJsonStr rest ('\t' :: acc)
    | 'r' => parseJsonStr rest ('\r' :: acc)
    | 'b' => parseJsonStr rest ('\x08' :: acc)
    | 'f' => parseJsonStr rest ('\x0C' :: acc)
    | _ => none
  | '\\' :: [], _ => none
  | c :: rest, acc => parseJsonStr rest (c :: acc)
  | [], _ => none

/-- Parse a JSON number starting at the given characters. -/
def parseJsonNum (cs : List Char) : Option (JsVal × List Char) :=
  let p := match cs with
    | '-' :: r => (true, r)
    | _ => (false, cs)
  let neg := p.1
  let cs1 := p.2
  let ds := cs1.takeWhile Char.isDigit
  if ds.isEmpty then none
  else if ds.length > 1 && ds.headD '0' == '0' then none
  else
    let intPart : ℚ := (digitsToNat ds : ℚ)
    let rest1 := cs1.drop ds.length
    match rest1 with
    | '.' :: r2 =>
      let fs := r2.takeWhile Char.isDigit
      if fs.isEmpty then none
      else
        let v := intPart + (digitsToNat fs : ℚ) / ((10 : ℚ) ^ fs.length)
        some (.num (if neg then -v else v), r2.drop fs.length)
    | _ => some (.num (if neg then -intPart else intPart), rest1)

mutual

/-- Fueled recursive-descent parser for one JSON value. -/
def parseJsonVal : Nat → List Char → Option (JsVal × List Char)
  | 0, _ => none
  | fuel + 1, cs =>
    match skipWs cs with
    | 'n' :: 'u' :: 'l' :: 'l' :: rest => some (.null, rest)
    | 't' :: 'r' :: 'u' :: 'e' :: rest => some (.bool true, rest)
    | 'f' :: 'a' :: 'l' :: 's' :: 'e' :: rest => some (.bool false, rest)
    | '"' :: rest =>
      (parseJsonStr rest []).map (fun r => (.str r.1, r.2))
    | '[' :: rest =>
      match skipWs rest with
      | ']' :: r2 => some (.arr [], r2)
      | r2 => (parseJsonElems fuel r2).map (fun r => (.arr r.1, r.2))
    | '{' :: rest =>
      match skipWs rest with
      | '}' :: r2 => some (.obj [], r2)
      | r2 => (parseJsonMembers fuel r2).map (fun r => (.obj r.1, r.2))
    | c :: rest =>
      if c == '-' || c.isDigit then parseJsonNum (c :: rest) else none
    | [] => none

/-- Fueled parser for the comma-separated elements of a JSON array. -/
def parseJsonElems : Nat → List Char → Option (List JsVal × List Char)
  | 0, _ => none
  | fuel + 1, cs =>
    match parseJsonVal fuel cs with
    | none => none
    | some (v, r) =>
      match skipWs r with
      | ',' :: r2 => (parseJsonElems fuel r2).map (fun q => (v :: q.1, q.2))
      | ']' :: r2 => some ([v], r2)
      | _ => none

/-- Fueled parser for the members of a JSON object. -/
def parseJsonMembers : Nat → List Char → Option (List (String × JsVal) × List Char)
  | 0, _ => none
  | fuel + 1, cs =>
    match skipWs cs with
    | '"' :: rest =>
      match parseJsonStr rest [] with
      | none => none
      | some (k, r) =>
        match skipWs r with
        | ':' :: r2 =>
          match parseJsonVal fuel r2 with
          | none => none
          | some (v, r3) =>
            match skipWs r3 with
            | ',' :: r4 => (parseJsonMembers fuel r4).map (fun q => ((k, v) :: q.1, q.2))
            | '}' :: r4 => some ([(k, v)], r4)
            | _ => none
        | _ => none
    | _ => none

end

/-- Model of `JSON.parse`: succeeds only when the whole string is a single
JSON value surrounded by at most whitespace. -/
def jsonParse (s : String) : Option JsVal :=
  match parseJsonVal (2 * s.toList.length + 2) s.toList with
  | some (v, rest) => if (skipWs rest).isEmpty then some v else none
  | none => none

/-- The substring captured by the JS regex match `response.match(/\{[\s\S]*\}/)`
in `generateStructuredResponse`: a single greedy match running from the first
opening brace to the last closing brace of the text (when a closing brace
follows the first opening brace), with no balancing. -/
def greedyObjectSpan (s : String) : Option String :=
  let cs := s.toList
  match cs.findIdx? (fun c => c == '{') with
  | none => none
  | some i =>
    let tail := cs.drop i
    match tail.reverse.findIdx? (fun c => c == '}') with
    | none => none
    | some r => some (String.mk (tail.take (tail.length - r)))

/-- The JSON extraction and fallback policy of
`ollamaService.generateStructuredResponse` (the decoding part, after the
model reply string has been obtained): direct parse, then parse of the
greedy brace span, then a malformed-response error. -/
def generateStructuredResponseParse (response : String) : Except Unit JsVal :=
  match jsonParse response with
  | some v => .ok v
  | none =>
    match greedyObjectSpan response with
    | some sub =>
      match jsonParse sub with
      | some v => .ok v
      | none => .error ()
    | none => .error ()

/-- Modelled from the spec: depth-counting scan that returns the first
top-level balanced object substring starting at the first opening brace. -/
def balancedScan : List Char → Nat → List Char → Option (List Char)
  | [], _, _ => none
  | c :: rest, depth, acc =>
    if c == '{' then balancedScan rest (depth + 1) (c :: acc)
    else if c == '}' then
      if depth == 1 then some (c :: acc).reverse
      else if depth == 0 then none
      else balancedScan rest (depth - 1) (c :: acc)
    else balancedScan rest depth (c :: acc)

/-- Modelled from the spec: the first top-level balanced object substring
of the text, as the parse-policy sentence describes the fallback extraction. -/
def firstBalancedObject (s : String) : Option String :=
  match s.toList.dropWhile (fun c => c != '{') with
  | [] => none
  | cs => (balancedScan cs 0 []).map String.mk

/-- Modelled from the spec: the decoder the parse-policy sentence describes,
which on direct parse failure parses the first top-level balanced object
substring before giving up. -/
def specStructuredResponseParse (response : String) : Except Unit JsVal :=
  match jsonParse response with
  | some v => .ok v
  | none =>
    match firstBalancedObject response with
    | some sub =>
      match jsonParse sub with
      | some v => .ok v
      | none => .error ()
    | none => .error ()

/-- A work-experience record, after decoding, as in `types/index.ts`
(`ExperienceSection`). -/
structure ExperienceSection where
  id : String
  company : String
  position : String
  startDate : String
  endDate : Option String
  description : String
  responsibilities : List String
  technologies : Option (List String)
  achievements : Option (List String)
  deriving Repr, DecidableEq

/-- Split a character list on the dash separator, keeping empty components. -/
def splitDash : List Char → List (List Char)
  | [] => [[]]
  | '-' :: rest => [] :: splitDash rest
  | c :: rest =>
    match splitDash rest with
    | g :: gs => (c :: g) :: gs
    | [] => [[c]]

/-- A component of exactly `len` digits whose value lies in `[lo, hi]`. -/
def parseBoundedComp (len lo hi : Nat) (cs : List Char) : Option Nat :=
  if cs.length == len && cs.all Char.isDigit then
    let v := digitsToNat cs
    if lo ≤ v ∧ v ≤ hi then some v else none
  else none

/-- Model of `new Date(s)` restricted to the ISO `YYYY-MM` and `YYYY-MM-DD`
shapes produced by appending `-01` to the stored date strings; yields
(full year, zero-based month) on success, `none` for an invalid date. -/
def jsDateYM (s : String) : Option (Nat × Nat) :=
  match splitDash s.toList with
  | [y, m] => do
    let yy ← parseBoundedComp 4 0 9999 y
    let mm ← parseBoundedComp 2 1 12 m
    pure (yy, mm - 1)
  | [y, m, d] => do
    let yy ← parseBoundedComp 4 0 9999 y
    let mm ← parseBoundedComp 2 1 12 m
    let _ ← parseBoundedComp 2 1 31 d
    pure (yy, mm - 1)
  | _ => none

/-- The clamped whole-month span one experience entry contributes in
`calculateTotalExperience`: zero when either date fails to parse, an open
end date defaulting to the current month. -/
def entryMonths (today : Nat × Nat) (e : ExperienceSection) : ℤ :=
  match jsDateYM (e.startDate ++ "-01"),
        (match e.endDate with
         | some d => jsDateYM (d ++ "-01")
         | none => some today) with
  | some st, some en =>
    max 0 (((en.1 : ℤ) - (st.1 : ℤ)) * 12 + ((en.2 : ℤ) - (st.2 : ℤ)))
  | _, _ => 0

/-- JS `Math.round`: floor after adding one half. `Rat.floor` is used
rather than the `FloorRing` notation so that concrete instances evaluate
inside the kernel. -/
def jsRound (q : ℚ) : ℤ := Rat.floor (q + 1 / 2)

/-- `calculateTotalExperience` from `aiAnalysisService`: per-entry clamped
whole-month spans summed and converted to years rounded to one decimal. -/
def calculateTotalExperience (today : Nat × Nat) (experience : List ExperienceSection) : ℚ :=
  if experience.isEmpty then 0
  else
    let totalMonths : ℤ := (experience.map (entryMonths today)).sum
    ((jsRound ((totalMonths : ℚ) / 12 * 10) : ℤ) : ℚ) / 10

/-- ASCII-faithful model of JS `toLowerCase`. -/
def lowerStr (s : String) : String := String.mk (s.toList.map Char.toLower)

/-- Whether the first list is a prefix of the second. -/
def startsWithChars : List Char → List Char → Bool
  | [], _ => true
  | _ :: _, [] => false
  | n :: ns, h :: hs => n == h && startsWithChars ns hs

/-- Whether the needle occurs as a contiguous run inside the haystack. -/
def containsSub (needle : List Char) : List Char → Bool
  | [] => needle.isEmpty
  | c :: rest => startsWithChars needle (c :: rest) || containsSub needle rest

/-- JS `hay.includes(needle)` substring test. -/
def strIncludes (hay needle : String) : Bool :=
  containsSub needle.toList hay.toList

/-- Model of JS `String.prototype.trim`. -/
def jsTrim (s : String) : String :=
  String.mk (((s.toList.dropWhile Char.isWhitespace).reverse.dropWhile Char.isWhitespace).reverse)

/-- The leadership-signal predicate of `determineSeniority`: a keyword in
some position title, or a keyword in some listed responsibility. -/
def hasLeadershipExperience (experience : List ExperienceSection) : Bool :=
  experience.any (fun exp =>
    strIncludes (lowerStr exp.position) "lead" ||
    strIncludes (lowerStr exp.position) "senior" ||
    strIncludes (lowerStr exp.position) "principal" ||
    strIncludes (lowerStr exp.position) "manager" ||
    exp.responsibilities.any (fun resp =>
      strIncludes (lowerStr resp) "lead" ||
      strIncludes (lowerStr resp) "manage" ||
      strIncludes (lowerStr resp) "mentor"))

/-- The six seniority labels of `types/index.ts`. -/
inductive SeniorityLevel where
  | Entry | Junior | Mid | Senior | Lead | Principal
  deriving Repr, DecidableEq

/-- The valid seniority label strings checked against the model reply. -/
def validSeniorityStrings : List String :=
  ["Entry", "Junior", "Mid", "Senior", "Lead", "Principal"]

/-- Decode one of the six valid label strings. -/
def levelOfString (s : String) : SeniorityLevel :=
  if s == "Entry" then .Entry
  else if s == "Junior" then .Junior
  else if s == "Mid" then .Mid
  else if s == "Senior" then .Senior
  else if s == "Lead" then .Lead
  else .Principal

/-- The years-based threshold table used when the model reply is not a
valid label. -/
def seniorityFromYears (totalYears : ℚ) (hasLeadership : Bool) : SeniorityLevel :=
  if totalYears < 1 then .Entry
  else if totalYears < 3 then .Junior
  else if totalYears < 5 then .Mid
  else if totalYears < 8 then .Senior
  else if hasLeadership then .Lead
  else .Senior

/-- The coarser table in the catch block of `determineSeniority`, used when
the model call fails outright. -/
def seniorityOnFailure (totalYears : ℚ) : SeniorityLevel :=
  if totalYears < 2 then .Entry
  else if totalYears < 5 then .Junior
  else .Mid

/-- `determineSeniority` from `aiAnalysisService`: empty experience short
circuits to Entry; an outright model failure lands in the catch block; a
reply is trimmed, accepted when it is a valid label, and otherwise replaced
by the years-based threshold table. -/
def determineSeniority (outcome : Except Unit String) (today : Nat × Nat)
    (experience : List ExperienceSection) : SeniorityLevel :=
  if experience.isEmpty then .Entry
  else
    match outcome with
    | .error _ => seniorityOnFailure (calculateTotalExperience today experience)
    | .ok resp =>
      let s := jsTrim resp
      if validSeniorityStrings.contains s then levelOfString s
      else seniorityFromYears (calculateTotalExperience today experience)
        (hasLeadershipExperience experience)

/-- The three valid proficiency strings. -/
def validProficiencies : List String := ["Beginner", "Intermediate", "Advanced"]

/-- A cleaned technical skill (`TechnicalSkill` in `types/index.ts`); the
category keeps the raw JS value, as the source copies it through a truthy
`||` without a type check. -/
structure TechnicalSkill where
  name : String
  category : JsVal
  proficiencyLevel : String
  yearsOfExperience : Option ℚ
  deriving Repr

/-- A cleaned programming language entry. -/
structure ProgrammingLanguage where
  name : String
  proficiencyLevel : String
  yearsOfExperience : Option ℚ
  deriving Repr

/-- A cleaned framework entry. -/
structure Framework where
  name : String
  category : JsVal
  proficiencyLevel : String
  yearsOfExperience : Option ℚ
  deriving Repr

/-- A cleaned tool entry. -/
structure Tool where
  name : String
  category : JsVal
  proficiencyLevel : String
  deriving Repr

/-- A cleaned soft skill entry. -/
structure SoftSkill where
  name : String
  description : Option String
  deriving Repr

/-- The five-container skill set (`SkillSet` in `types/index.ts`). -/
structure SkillSet where
  technical : List TechnicalSkill
  soft : List SoftSkill
  languages : List ProgrammingLanguage
  frameworks : List Framework
  tools : List Tool
  deriving Repr

/-- The empty skill-set shape every failure path falls back to. -/
def emptySkillSet : SkillSet :=
  { technical := [], soft := [], languages := [], frameworks := [], tools := [] }

/-- The element filter shared by the skill cleaners: the element is truthy
and its `name` field is a string (possibly empty). -/
def keepNamed (x : JsVal) : Bool :=
  jsTruthy x &&
    (match getField x "name" with
     | some (.str _) => true
     | _ => false)

/-- The string stored in a `name` field; the filter guarantees the field is
a string when this is applied. -/
def nameOf (x : JsVal) : String :=
  match getField x "name" with
  | some (.str s) => s
  | _ => ""

/-- The enum clamp of the cleaners: one of the three valid proficiency
strings passes through, anything else becomes Intermediate. -/
def cleanProficiency (x : JsVal) : String :=
  match getField x "proficiencyLevel" with
  | some (.str s) => if validProficiencies.contains s then s else "Intermediate"
  | _ => "Intermediate"

/-- The numeric coercion of the cleaners: a JSON number passes through, any
other type becomes absent. -/
def cleanYears (x : JsVal) : Option ℚ :=
  match getField x "yearsOfExperience" with
  | some (.num q) => some q
  | _ => none

/-- The list under a field when it is an array, otherwise the empty list
(the `Array.isArray` guard of the cleaners). -/
def arrayField (v : JsVal) (k : String) : List JsVal :=
  match getField v k with
  | some (.arr xs) => xs
  | _ => []

/-- The record built by `validateAndCleanSkillSet` for a non-null input. -/
def cleanSkillSetCore (v : JsVal) : SkillSet :=
  { technical :=
      ((arrayField v "technical").filter keepNamed).map (fun x =>
        { name := nameOf x
          category := fieldOr x "category" (.str "General")
          proficiencyLevel := cleanProficiency x
          yearsOfExperience := cleanYears x })
    languages :=
      ((arrayField v "languages").filter keepNamed).map (fun x =>
        { name := nameOf x
          proficiencyLevel := cleanProficiency x
          yearsOfExperience := cleanYears x })
    frameworks :=
      ((arrayField v "frameworks").filter keepNamed).map (fun x =>
        { name := nameOf x
          category := fieldOr x "category" (.str "General")
          proficiencyLevel := cleanProficiency x
          yearsOfExperience := cleanYears x })
    tools :=
      ((arrayField v "tools").filter keepNamed).map (fun x =>
        { name := nameOf x
          category := fieldOr x "category" (.str "General")
          proficiencyLevel := cleanProficiency x })
    soft :=
      ((arrayField v "soft").filter keepNamed).map (fun x =>
        { name := nameOf x
          description :=
            match getField x "description" with
            | some (.str s) => some s
            | _ => none }) }

/-- `validateAndCleanSkillSet` from `aiAnalysisService`. Property access on
a JSON `null` throws a TypeError in JS, hence the `Except`; every other
decoded value is cleaned into the typed shape. -/
def validateAndCleanSkillSet (skillSet : JsVal) : Except Unit SkillSet :=
  match skillSet with
  | .null => .error ()
  | v => .ok (cleanSkillSetCore v)

/-- The question partition requested from the generator. -/
inductive QType where
  | technical | behavioral
  deriving Repr, DecidableEq

/-- The difficulty enum of `types/index.ts`; Mixed is a generation policy
only. -/
inductive Difficulty where
  | Beginner | Intermediate | Advanced | Mixed
  deriving Repr, DecidableEq

/-- A cleaned interview question (`Question` in `types/index.ts`); fields
the source copies through `||` without a type check keep the raw JS value. -/
structure Question where
  id : JsVal
  type : QType
  difficulty : Difficulty
  question : String
  category : JsVal
  suggestedAnswerFramework : JsVal
  relatedSkills : List JsVal
  estimatedTime : JsVal
  deriving Repr

/-- Map with the element index, used to model one fresh uuid per record
that needs one. -/
def mapWithIndex (f : Nat → α → β) : Nat → List α → List β
  | _, [] => []
  | i, a :: as => f i a :: mapWithIndex f (i + 1) as

/-- The fallback branch of `validateDifficulty`: a concrete requested
difficulty wins, otherwise Intermediate. -/
def validateDifficultyFallback (target : Option Difficulty) : Difficulty :=
  match target with
  | some t => if t != .Mixed then t else .Intermediate
  | none => .Intermediate

/-- `validateDifficulty` from `questionGeneratorService`: one of the three
valid strings passes through, anything else falls back. -/
def validateDifficulty (qd : Option JsVal) (target : Option Difficulty) : Difficulty :=
  match qd with
  | some (.str "Beginner") => .Beginner
  | some (.str "Intermediate") => .Intermediate
  | some (.str "Advanced") => .Advanced
  | _ => validateDifficultyFallback target

/-- The per-type default answer framework text. -/
def getDefaultFramework : QType → String
  | .technical =>
    "Break down the problem, explain your approach, discuss trade-offs, and provide a clear solution with examples."
  | .behavioral =>
    "Use the STAR method: Situation (context), Task (what needed to be done), Action (what you did), Result (outcome and what you learned)."

/-- The element filter of `validateAndCleanQuestions`: truthy, with a
question text that is a string and nonempty after trimming. -/
def keepQuestion (q : JsVal) : Bool :=
  jsTruthy q &&
    (match getField q "question" with
     | some (.str s) => jsTrim s != ""
     | _ => false)

/-- The trimmed question text; the filter guarantees the field shape. -/
def questionTextOf (q : JsVal) : String :=
  match getField q "question" with
  | some (.str s) => jsTrim s
  | _ => ""

/-- Build one cleaned question record, `gen i` standing in for the fresh
uuid the source draws when the raw id is falsy. -/
def mkCleanQuestion (ty : QType) (target : Option Difficulty) (gen : Nat → String)
    (i : Nat) (q : JsVal) : Question :=
  { id := fieldOr q "id" (.str (gen i))
    type := ty
    difficulty := validateDifficulty (getField q "difficulty") target
    question := questionTextOf q
    category :=
      fieldOr q "category"
        (.str (if ty == .technical then "General Programming" else "General"))
    suggestedAnswerFramework :=
      fieldOr q "suggestedAnswerFramework" (.str (getDefaultFramework ty))
    relatedSkills :=
      match getField q "relatedSkills" with
      | some (.arr xs) => xs
      | _ => []
    estimatedTime :=
      fieldOr q "estimatedTime"
        (.str (if ty == .technical then "5-10 minutes" else "3-5 minutes")) }

/-- `validateAndCleanQuestions` from `questionGeneratorService`: a non-array
value yields the empty list; otherwise filter on question text and rebuild
every record with validated fields. -/
def validateAndCleanQuestions (raw : JsVal) (ty : QType) (target : Option Difficulty)
    (gen : Nat → String) : List Question :=
  match raw with
  | .arr qs => mapWithIndex (mkCleanQuestion ty target gen) 0 (qs.filter keepQuestion)
  | _ => []

/-- `selectQuestions` from `questionGeneratorService`: a pool within the
target count is returned whole; a larger pool is shuffled (here an abstract
permutation-producing parameter, standing in for the `Math.random` sort)
and truncated to the target count. -/
def selectQuestions (shuffle : List Question → List Question)
    (questions : List Question) (targetCount : Nat) : List Question :=
  if questions.length ≤ targetCount then questions
  else (shuffle questions).take targetCount

/-- The cleaned pool contributed by one category generation call: an
outright failure of the call degrades to the empty list (its catch block). -/
def categoryQuestions (outcome : Except Unit JsVal) (difficulty : Difficulty)
    (gen : Nat → String) : List Question :=
  match outcome with
  | .ok raw => validateAndCleanQuestions raw .technical (some difficulty) gen
  | .error _ => []

/-- The merge-and-select stage of `generateTechnicalQuestions`: one model
outcome per skill category, cleaned pools merged, then down-sampled to the
requested count. Prompt construction and the category grouping itself are
model-facing and not modelled. -/
def generateTechnicalQuestionsCore (outcomes : List (Except Unit JsVal))
    (count : Nat) (difficulty : Difficulty) (gen : Nat → Nat → String)
    (shuffle : List Question → List Question) : List Question :=
  selectQuestions shuffle
    ((mapWithIndex (fun i o => categoryQuestions o difficulty (gen i)) 0 outcomes).flatten)
    count

/-- One entry of the flattened `allTechnicalSkills` context built at the
top of `generateTechnicalQuestions`. -/
structure SkillRef where
  name : String
  category : JsVal
  level : String

/-- The merged skill references of `generateTechnicalQuestions`: technical
skills, languages (with the fixed Programming Language category),
frameworks and tools, in source order. -/
def allTechnicalSkills (skills : SkillSet) : List SkillRef :=
  skills.technical.map (fun s => { name := s.name, category := s.category, level := s.proficiencyLevel })
    ++ skills.languages.map (fun s =>
        { name := s.name, category := .str "Programming Language", level := s.proficiencyLevel })
    ++ skills.frameworks.map (fun s => { name := s.name, category := s.category, level := s.proficiencyLevel })
    ++ skills.tools.map (fun s => { name := s.name, category := s.category, level := s.proficiencyLevel })

/-- `generateGeneralTechnicalQuestions`: a successful reply is cleaned and
returned whole — there is no `selectQuestions` down-sampling on this path,
the requested count only shapes the prompt text — and an outright failure
degrades to the empty list in its catch block. -/
def generateGeneralTechnicalQuestions (outcome : Except Unit JsVal)
    (difficulty : Difficulty) (gen : Nat → String) : List Question :=
  match outcome with
  | .ok raw => validateAndCleanQuestions raw .technical (some difficulty) gen
  | .error _ => []

/-- `generateTechnicalQuestions`: an entirely empty merged skill list
routes to the single general-programming call (whose cleaned pool is
returned without trimming); otherwise the per-category fan-out runs and the
merged pool is down-sampled by `selectQuestions`. `generalOutcome` is the
general-call reply, `outcomes` the per-category replies. -/
def generateTechnicalQuestions (skills : SkillSet) (count : Nat)
    (difficulty : Difficulty) (generalOutcome : Except Unit JsVal)
    (outcomes : List (Except Unit JsVal)) (gen : Nat → Nat → String)
    (genG : Nat → String) (shuffle : List Question → List Question) : List Question :=
  if (allTechnicalSkills skills).length == 0 then
    generateGeneralTechnicalQuestions generalOutcome difficulty genG
  else
    generateTechnicalQuestionsCore outcomes count difficulty gen shuffle

/-- The five hardcoded generic behavioral questions, as (text, category)
pairs, from `getFallbackBehavioralQuestions`. -/
def fallbackBehavioralList : List (String × String) :=
  [("Tell me about a challenging project you worked on and how you overcame the difficulties.",
    "Problem-solving"),
   ("Describe a time when you had to work with a difficult team member. How did you handle it?",
    "Teamwork"),
   ("Give me an example of when you had to learn a new technology quickly for a project.",
    "Adaptability"),
   ("Tell me about a time when you disagreed with a technical decision. How did you handle it?",
    "Communication"),
   ("Describe a situation where you had to meet a tight deadline. How did you manage it?",
    "Pressure Management")]

/-- `getFallbackBehavioralQuestions`: `slice(0, count)` over the fixed
five-entry list, each surviving entry built into a behavioral question with
a fresh id. -/
def getFallbackBehavioralQuestions (gen : Nat → String) (count : Nat) : List Question :=
  mapWithIndex
    (fun i p =>
      { id := .str (gen i)
        type := .behavioral
        difficulty := .Intermediate
        question := p.1
        category := .str p.2
        suggestedAnswerFramework := .str (getDefaultFramework .behavioral)
        relatedSkills := [.str "Communication", .str "Problem Solving"]
        estimatedTime := .str "3-5 minutes" })
    0 (fallbackBehavioralList.take count)

/-- `generateGeneralBehavioralQuestions`: clean a successful reply; an
outright failure falls back to the hardcoded list. -/
def generateGeneralBehavioralQuestions (count : Nat) (outcome : Except Unit JsVal)
    (gen : Nat → String) : List Question :=
  match outcome with
  | .ok raw => validateAndCleanQuestions raw .behavioral none gen
  | .error _ => getFallbackBehavioralQuestions gen count

/-- `generateBehavioralQuestions`: empty experience routes to the general
generator; otherwise a successful experience-specific reply is cleaned and
truncated to the requested count, and a failure routes to the general
generator (whose own failure reaches the hardcoded list). `o1` is the
experience-specific model outcome, `o2` the general-generator outcome. -/
def generateBehavioralQuestions (experience : List ExperienceSection) (count : Nat)
    (o1 o2 : Except Unit JsVal) (gen : Nat → String) : List Question :=
  if experience.isEmpty then generateGeneralBehavioralQuestions count o2 gen
  else
    match o1 with
    | .ok raw => (validateAndCleanQuestions raw .behavioral none gen).take count
    | .error _ => generateGeneralBehavioralQuestions count o2 gen

/-- A roadmap step (`RoadmapStep` in `types/index.ts`); the nested learning
resources and prerequisites are never read by the timeline computation and
are omitted. -/
structure RoadmapStep where
  id : String
  title : String
  description : String
  skills : List String
  estimatedTime : String
  priority : String
  deriving Repr, DecidableEq

/-- JS `\s`-style whitespace for the time-estimate regex. -/
def isRegexWs (c : Char) : Bool :=
  c == ' ' || c == '\t' || c == '\n' || c == '\r' || c == '\x0C' || c == '\x0B'

/-- Case-insensitive literal match at the head of the characters. -/
def lowerStartsWith (pat : String) (cs : List Char) : Bool :=
  startsWithChars pat.toList ((cs.take pat.toList.length).map Char.toLower)

/-- One attempt of the regex `(\d+)\s*(month|week)/i` anchored at the head:
a maximal digit run, optional whitespace, then the unit word. Maximal munch
is exact here because neither unit word starts with a digit or whitespace.
Returns the captured value and whether the unit is months (`true`) or weeks
(`false`). -/
def timeMatchAt (cs : List Char) : Option (Nat × Bool) :=
  let ds := cs.takeWhile Char.isDigit
  if ds.isEmpty then none
  else
    let rest := (cs.drop ds.length).dropWhile isRegexWs
    if lowerStartsWith "month" rest then some (digitsToNat ds, true)
    else if lowerStartsWith "week" rest then some (digitsToNat ds, false)
    else none

/-- Leftmost match of the time-estimate regex over the whole string. -/
def firstTimeMatch (cs : List Char) : Option (Nat × Bool) :=
  match cs with
  | [] => none
  | _ :: rest =>
    match timeMatchAt cs with
    | some r => some r
    | none => firstTimeMatch rest

/-- The month contribution of one parsed estimate: months count as they
are, weeks convert by `Math.ceil(weeks / 4)`. -/
def estimateMonths (p : Nat × Bool) : Nat :=
  if p.2 then p.1 else (p.1 + 3) / 4

/-- The month formatting of `calculateTimelineEstimate` once at least one
estimate parsed. -/
def formatTimeline (totalMonths : Nat) : String :=
  if totalMonths ≤ 6 then s!"{totalMonths} months"
  else if totalMonths ≤ 12 then s!"{totalMonths} months"
  else
    let years := totalMonths / 12
    let remainingMonths := totalMonths % 12
    if remainingMonths == 0 then
      s!"{years} year" ++ (if years > 1 then "s" else "")
    else
      s!"{years} year" ++ (if years > 1 then "s" else "") ++ " " ++
        s!"{remainingMonths} month" ++ (if remainingMonths > 1 then "s" else "")

/-- `calculateTimelineEstimate` from `careerGuidanceService`: the empty
step list returns the fixed "6 months"; otherwise each step contributes its
first regex match (unparseable estimates contribute nothing), and a list in
which nothing parsed returns the fixed "6-12 months" default. -/
def calculateTimelineEstimate (steps : List RoadmapStep) : String :=
  if steps.isEmpty then "6 months"
  else
    let contribs := steps.filterMap (fun st => firstTimeMatch st.estimatedTime.toList)
    if contribs.isEmpty then "6-12 months"
    else formatTimeline (contribs.map estimateMonths).sum

/-- An education record (`EducationSection` in `types/index.ts`). -/
structure EducationSection where
  id : String
  institution : String
  degree : String
  field : String
  startDate : String
  endDate : Option String
  gpa : Option String
  honors : Option (List String)
  relevantCoursework : Option (List String)
  deriving Repr, DecidableEq

/-- A project record (`ProjectSection` in `types/index.ts`). -/
structure ProjectSection where
  id : String
  name : String
  description : String
  technologies : List String
  startDate : Option String
  endDate : Option String
  url : Option String
  github : Option String
  achievements : Option (List String)
  deriving Repr, DecidableEq

/-- The assembled analysis result (`ResumeAnalysis` in `types/index.ts`);
the wall-clock `uploadedAt` stamp is omitted. -/
structure ResumeAnalysis where
  id : String
  fileName : String
  personalInfo : JsVal
  experience : List ExperienceSection
  education : List EducationSection
  skills : SkillSet
  projects : List ProjectSection
  seniorityLevel : SeniorityLevel
  careerSummary : String
  totalExperienceYears : ℚ
  deriving Repr

/-- `extractPersonalInfo`: the decoded reply is passed through unvalidated;
any failure degrades to the empty object. -/
def extractPersonalInfo (outcome : Except Unit JsVal) : JsVal :=
  match outcome with
  | .ok v => v
  | .error _ => .obj []

/-- `extractSkills`: a successful reply is cleaned (a TypeError inside the
cleaner is caught by the same try block); any failure degrades to the empty
skill set. -/
def extractSkills (outcome : Except Unit JsVal) : SkillSet :=
  match outcome with
  | .error _ => emptySkillSet
  | .ok raw =>
    match validateAndCleanSkillSet raw with
    | .ok s => s
    | .error _ => emptySkillSet

/-- The decoded shape of a model reply from which a typed array is
expected: either an array whose elements are the (cast) typed records, or a
decoded value that is not an array at all — the `Array.isArray` guard of
the extractors sends the latter to the empty list. -/
inductive DecodedArray (α : Type) where
  | arr (items : List α)
  | nonArray

/-- `extractExperience`: a successful array reply gets falsy (empty) ids
replaced by fresh uuids; a successful non-array reply is mapped to the
empty list by the `Array.isArray` guard; an outright failure degrades to
the empty list in the catch block. -/
def extractExperience (outcome : Except Unit (DecodedArray ExperienceSection))
    (gen : Nat → String) : List ExperienceSection :=
  match outcome with
  | .error _ => []
  | .ok .nonArray => []
  | .ok (.arr l) =>
    mapWithIndex (fun i e => if e.id == "" then { e with id := gen i } else e) 0 l

/-- `extractEducation`, under the same conventions as `extractExperience`. -/
def extractEducation (outcome : Except Unit (DecodedArray EducationSection))
    (gen : Nat → String) : List EducationSection :=
  match outcome with
  | .error _ => []
  | .ok .nonArray => []
  | .ok (.arr l) =>
    mapWithIndex (fun i e => if e.id == "" then { e with id := gen i } else e) 0 l

/-- `extractProjects`, under the same conventions as `extractExperience`. -/
def extractProjects (outcome : Except Unit (DecodedArray ProjectSection))
    (gen : Nat → String) : List ProjectSection :=
  match outcome with
  | .error _ => []
  | .ok .nonArray => []
  | .ok (.arr l) =>
    mapWithIndex (fun i e => if e.id == "" then { e with id := gen i } else e) 0 l

/-- `generateCareerSummary`: a successful reply is trimmed; any failure
degrades to the fixed summary sentence. -/
def generateCareerSummary (outcome : Except Unit String) : String :=
  match outcome with
  | .ok s => jsTrim s
  | .error _ => "Experienced professional with diverse technical skills and industry experience."

/-- `analyzeResume`: the five extraction branches run concurrently and each
degrades independently (its own catch block), so the assembly never throws;
seniority, summary and total-experience derive from the (possibly degraded)
experience slice. -/
def analyzeResume (newId : String) (today : Nat × Nat) (gen : Nat → String)
    (oPersonal oSkills : Except Unit JsVal)
    (oExperience : Except Unit (DecodedArray ExperienceSection))
    (oEducation : Except Unit (DecodedArray EducationSection))
    (oProjects : Except Unit (DecodedArray ProjectSection))
    (oSeniority oSummary : Except Unit String) : ResumeAnalysis :=
  let experience := extractExperience oExperience gen
  { id := newId
    fileName := "resume.pdf"
    personalInfo := extractPersonalInfo oPersonal
    experience := experience
    education := extractEducation oEducation gen
    skills := extractSkills oSkills
    projects := extractProjects oProjects gen
    seniorityLevel := determineSeniority oSeniority today experience
    careerSummary := generateCareerSummary oSummary
    totalExperienceYears := calculateTotalExperience today experience }

/-! ### Helper lemmas shared by the claim theorems -/

/-- Evaluate the JS rounding at a concrete value by sandwiching the floor. -/
theorem jsRound_eq_of (q : ℚ) (z : ℤ) (h1 : (z : ℚ) ≤ q + 1 / 2)
    (h2 : q + 1 / 2 < (z : ℚ) + 1) : jsRound q = z := by
  have ha : z ≤ Rat.floor (q + 1 / 2) := Rat.le_floor.mpr h1
  have hb : ¬ (z + 1 ≤ Rat.floor (q + 1 / 2)) := by
    intro hc
    have hc2 : ((z + 1 : ℤ) : ℚ) ≤ q + 1 / 2 := Rat.le_floor.mp hc
    push_cast at hc2
    linarith
  unfold jsRound
  omega

/-- The floor is monotone from below: a nonnegative argument gives a
nonnegative JS rounding. -/
theorem jsRound_nonneg (q : ℚ) (hq : 0 ≤ q) : 0 ≤ jsRound q := by
  unfold jsRound
  exact Rat.le_floor.mpr (by push_cast; linarith)

/-- An entry never contributes negative months: both arms of the match are
nonnegative. -/
theorem entryMonths_nonneg (today : Nat × Nat) (e : ExperienceSection) :
    0 ≤ entryMonths today e := by
  unfold entryMonths
  split
  · exact le_max_left 0 _
  · exact le_rfl

/-- The unconditional closed form of `calculateTotalExperience`: the empty
guard of the source is redundant because an empty sum rounds to zero. -/
theorem calcTotal_formula (today : Nat × Nat) (l : List ExperienceSection) :
    calculateTotalExperience today l =
      ((jsRound (((l.map (entryMonths today)).sum : ℚ) / 12 * 10) : ℤ) : ℚ) / 10 := by
  unfold calculateTotalExperience
  split
  · next h =>
    have hl : l = [] := List.isEmpty_iff.mp h
    subst hl
    have h0 : jsRound ((((List.map (entryMonths today) []).sum : ℤ) : ℚ) / 12 * 10) = 0 := by
      apply jsRound_eq_of <;> norm_num
    rw [h0]
    norm_num
  · rfl

/-- Evaluate the total experience once the month sum and its rounding are
known. -/
theorem calcTotal_eval (today : Nat × Nat) (l : List ExperienceSection) (m z : ℤ)
    (hm : (l.map (entryMonths today)).sum = m)
    (hz : jsRound ((m : ℚ) / 12 * 10) = z) :
    calculateTotalExperience today l = (z : ℚ) / 10 := by
  rw [calcTotal_formula, hm, hz]

/-- Membership in an indexed map comes from membership in the base list. -/
theorem mem_mapWithIndex {f : Nat → α → β} {b : β} :
    ∀ {i : Nat} {l : List α}, b ∈ mapWithIndex f i l → ∃ j a, a ∈ l ∧ b = f j a := by
  intro i l
  induction l generalizing i with
  | nil => intro h; simp [mapWithIndex] at h
  | cons a as ih =>
    intro h
    rcases List.mem_cons.mp h with h1 | h2
    · exact ⟨i, a, List.mem_cons_self a as, h1⟩
    · obtain ⟨j, a2, ha2, rfl⟩ := ih h2
      exact ⟨j, a2, List.mem_cons_of_mem a ha2, rfl⟩

/-- An indexed map preserves length. -/
theorem length_mapWithIndex {f : Nat → α → β} :
    ∀ (i : Nat) (l : List α), (mapWithIndex f i l).length = l.length := by
  intro i l
  induction l generalizing i with
  | nil => rfl
  | cons a as ih => simp [mapWithIndex, ih]

/-- The difficulty validator never lets the Mixed policy value through. -/
theorem validateDifficulty_ne_mixed (qd : Option JsVal) (target : Option Difficulty) :
    validateDifficulty qd target ≠ .Mixed := by
  have hfb : validateDifficultyFallback target ≠ .Mixed := by
    unfold validateDifficultyFallback
    split
    · next t =>
      split
      · next ht => simpa using ht
      · simp
    · simp
  unfold validateDifficulty
  split <;> simp_all

/-- A raw element that passes the question filter carries a string question
text that is nonempty after trimming. -/
theorem keepQuestion_shape {q : JsVal} (h : keepQuestion q = true) :
    ∃ s, getField q "question" = some (.str s) ∧ jsTrim s ≠ "" := by
  unfold keepQuestion at h
  rw [Bool.and_eq_true] at h
  obtain ⟨-, h2⟩ := h
  split at h2
  · next s heq => exact ⟨s, heq, by simpa using h2⟩
  · cases h2

/-- The `||`-style field default is always truthy when the default is a
nonempty string. -/
theorem jsTruthy_fieldOr_str (q : JsVal) (k : String) (d : String) (hd : d ≠ "") :
    jsTruthy (fieldOr q k (.str d)) = true := by
  unfold fieldOr
  split
  · next w _ =>
    split
    · next hw => exact hw
    · simpa [jsTruthy] using hd
  · simpa [jsTruthy] using hd

/-- Every question the cleaner emits has the requested type, a concrete
difficulty, and nonempty text. -/
theorem mem_validateAndCleanQuestions {raw : JsVal} {ty : QType}
    {target : Option Difficulty} {gen : Nat → String} {q : Question}
    (h : q ∈ validateAndCleanQuestions raw ty target gen) :
    q.type = ty ∧ q.difficulty ≠ .Mixed ∧ q.question ≠ "" := by
  unfold validateAndCleanQuestions at h
  split at h
  · next qs =>
    obtain ⟨j, a, ha, rfl⟩ := mem_mapWithIndex h
    have hk : keepQuestion a = true := List.of_mem_filter ha
    obtain ⟨s, hs, hne⟩ := keepQuestion_shape hk
    refine ⟨rfl, validateDifficulty_ne_mixed _ _, ?_⟩
    show questionTextOf a ≠ ""
    unfold questionTextOf
    rw [hs]
    exact hne
  · cases h

/-- Every question the cleaner emits has a truthy identifier, provided the
uuid generator never returns the empty string. -/
theorem mem_validateAndCleanQuestions_id {raw : JsVal} {ty : QType}
    {target : Option Difficulty} {gen : Nat → String} {q : Question}
    (hgen : ∀ k, gen k ≠ "")
    (h : q ∈ validateAndCleanQuestions raw ty target gen) :
    jsTruthy q.id = true := by
  unfold validateAndCleanQuestions at h
  split at h
  · next qs =>
    obtain ⟨j, a, _, rfl⟩ := mem_mapWithIndex h
    exact jsTruthy_fieldOr_str a "id" (gen j) (hgen j)
  · cases h

/-- The proficiency clamp always lands in the valid enum set. -/
theorem cleanProficiency_valid (x : JsVal) :
    validProficiencies.contains (cleanProficiency x) = true := by
  unfold cleanProficiency
  split
  · next s _ =>
    split
    · next hc => exact hc
    · decide
  · decide

/-- A field that never holds an array is read as the empty list. -/
theorem arrayField_eq_nil (v : JsVal) (k : String)
    (h : ∀ xs, getField v k ≠ some (.arr xs)) : arrayField v k = [] := by
  unfold arrayField
  cases hg : getField v k with
  | none => rfl
  | some w =>
    cases w with
    | arr xs => exact absurd hg (h xs)
    | null => rfl
    | bool b => rfl
    | num q => rfl
    | str s => rfl
    | obj kvs => rfl

/-- Every id the experience extractor emits is a nonempty (truthy) string,
provided the uuid generator never returns the empty string. -/
theorem extractExperience_ids (oE : Except Unit (DecodedArray ExperienceSection))
    (gen : Nat → String) (hgen : ∀ k, gen k ≠ "") :
    ∀ e ∈ extractExperience oE gen, e.id ≠ "" := by
  intro e he
  match oE with
  | .error u => exact absurd he (List.not_mem_nil e)
  | .ok .nonArray => exact absurd he (List.not_mem_nil e)
  | .ok (.arr l) =>
    obtain ⟨j, a, -, rfl⟩ := mem_mapWithIndex he
    cases hb : (a.id == "") with
    | true => simpa using hgen j
    | false => simpa using hb

/-- Every id the education extractor emits is a nonempty (truthy) string. -/
theorem extractEducation_ids (oE : Except Unit (DecodedArray EducationSection))
    (gen : Nat → String) (hgen : ∀ k, gen k ≠ "") :
    ∀ e ∈ extractEducation oE gen, e.id ≠ "" := by
  intro e he
  match oE with
  | .error u => exact absurd he (List.not_mem_nil e)
  | .ok .nonArray => exact absurd he (List.not_mem_nil e)
  | .ok (.arr l) =>
    obtain ⟨j, a, -, rfl⟩ := mem_mapWithIndex he
    cases hb : (a.id == "") with
    | true => simpa using hgen j
    | false => simpa using hb

/-- Every id the project extractor emits is a nonempty (truthy) string. -/
theorem extractProjects_ids (oP : Except Unit (DecodedArray ProjectSection))
    (gen : Nat → String) (hgen : ∀ k, gen k ≠ "") :
    ∀ e ∈ extractProjects oP gen, e.id ≠ "" := by
  intro e he
  match oP with
  | .error u => exact absurd he (List.not_mem_nil e)
  | .ok .nonArray => exact absurd he (List.not_mem_nil e)
  | .ok (.arr l) =>
    obtain ⟨j, a, -, rfl⟩ := mem_mapWithIndex he
    cases hb : (a.id == "") with
    | true => simpa using hgen j
    | false => simpa using hb

/-! ### Concrete fixtures -/

/-- A nine-year lead position used as a concrete instance: 2010-01 through
2019-01 is 108 months, and both the title and a responsibility carry
leadership keywords. -/
def expLead : ExperienceSection :=
  { id := "e1", company := "Acme", position := "Lead Engineer",
    startDate := "2010-01", endDate := some "2019-01", description := "",
    responsibilities := ["Led a team"], technologies := none, achievements := none }

/-- A six-month junior position used as a concrete instance. -/
def expB : ExperienceSection :=
  { id := "e2", company := "Beta", position := "Developer",
    startDate := "2021-03", endDate := some "2021-09", description := "",
    responsibilities := ["Wrote code"], technologies := none, achievements := none }

/-- An entry whose start date is not an ISO date and therefore fails to
parse. -/
def badDates : ExperienceSection :=
  { id := "x", company := "c", position := "Developer",
    startDate := "May 2020", endDate := none, description := "",
    responsibilities := [], technologies := none, achievements := none }

/-- An entry with a bare-year start date and a year-month end date. -/
def bareYearEntry : ExperienceSection :=
  { id := "y", company := "c", position := "Developer",
    startDate := "2020", endDate := some "2023-07", description := "",
    responsibilities := [], technologies := none, achievements := none }

/-- A concrete stand-in for the uuid generator; any nonempty string does. -/
def genDefault (_ : Nat) : String := "g"

/-- The nine-year lead fixture evaluates to exactly 9.0 total years. -/
theorem expLead_years : calculateTotalExperience (2025, 0) [expLead] = 9 := by
  have h := calcTotal_eval (2025, 0) [expLead] 108 90 (by decide)
    (jsRound_eq_of _ _ (by norm_num) (by norm_num))
  rw [h]
  norm_num

/-! ### Claim theorems -/

/-- Claim C1: for every experience list, `totalExperienceYears` is computed
deterministically from the entries (it is a function of the date ranges and
the current month only), is nonnegative, is invariant under permutation of
the entries, and equals the sum of per-entry clamped whole-month spans
converted to years rounded to one decimal. -/
theorem calcTotal_det_nonneg_perm (today : Nat × Nat)
    (l l2 : List ExperienceSection) (hp : l.Perm l2) :
    0 ≤ calculateTotalExperience today l
    ∧ calculateTotalExperience today l = calculateTotalExperience today l2
    ∧ (∀ e, 0 ≤ entryMonths today e)
    ∧ calculateTotalExperience today l =
        (if l.isEmpty then 0
         else ((jsRound (((l.map (entryMonths today)).sum : ℚ) / 12 * 10) : ℤ) : ℚ) / 10) := by
  have hs : 0 ≤ ((l.map (entryMonths today)).sum : ℤ) :=
    List.sum_nonneg (by
      intro x hx
      obtain ⟨e, -, rfl⟩ := List.mem_map.mp hx
      exact entryMonths_nonneg today e)
  refine ⟨?_, ?_, fun e => entryMonths_nonneg today e, rfl⟩
  · rw [calcTotal_formula]
    have h1 : (0 : ℚ) ≤ ((l.map (entryMonths today)).sum : ℚ) / 12 * 10 := by
      have hq : (0 : ℚ) ≤ (((l.map (entryMonths today)).sum : ℤ) : ℚ) := by exact_mod_cast hs
      have := div_nonneg hq (by norm_num : (0:ℚ) ≤ 12)
      linarith
    have h2 := jsRound_nonneg _ h1
    have h3 : (0 : ℚ) ≤ ((jsRound (((l.map (entryMonths today)).sum : ℚ) / 12 * 10) : ℤ) : ℚ) := by
      exact_mod_cast h2
    exact div_nonneg h3 (by norm_num)
  · rw [calcTotal_formula, calcTotal_formula, List.Perm.sum_eq (hp.map (entryMonths today))]

/-- Witness for C1 at a concrete two-entry list and its transposition. -/
theorem calcTotal_det_nonneg_perm_witness :
    calculateTotalExperience (2025, 0) [expLead, expB]
      = calculateTotalExperience (2025, 0) [expB, expLead] :=
  (calcTotal_det_nonneg_perm (2025, 0) [expLead, expB] [expB, expLead]
    (List.Perm.swap expB expLead [])).2.1

/-- Claim C2: when the model reply (after trimming) is not one of the six
valid labels, `determineSeniority` returns exactly the years-based
threshold table applied to the recomputed total years and the leadership
signal; and the table takes the documented values at 0.5, 2, 4, 6 and 9
years. -/
theorem determineSeniority_invalid_reply (resp : String) (today : Nat × Nat)
    (exps : List ExperienceSection)
    (h : validSeniorityStrings.contains (jsTrim resp) = false) :
    determineSeniority (.ok resp) today exps
      = seniorityFromYears (calculateTotalExperience today exps)
          (hasLeadershipExperience exps)
    ∧ seniorityFromYears (1 / 2) false = .Entry
    ∧ seniorityFromYears 2 false = .Junior
    ∧ seniorityFromYears 4 false = .Mid
    ∧ seniorityFromYears 6 false = .Senior
    ∧ seniorityFromYears 9 true = .Lead := by
  refine ⟨?_, by norm_num [seniorityFromYears], by norm_num [seniorityFromYears],
    by norm_num [seniorityFromYears], by norm_num [seniorityFromYears],
    by norm_num [seniorityFromYears]⟩
  cases he : exps.isEmpty with
  | true =>
    have h0 : calculateTotalExperience today exps = 0 := by
      unfold calculateTotalExperience
      rw [if_pos he]
    rw [h0]
    unfold determineSeniority
    rw [if_pos he]
    unfold seniorityFromYears
    rw [if_pos (by norm_num : (0 : ℚ) < 1)]
  | false =>
    unfold determineSeniority
    rw [if_neg (by simp [he])]
    show (if validSeniorityStrings.contains (jsTrim resp) = true then _ else _) = _
    rw [h]
    simp

/-- Witness for C2: an invalid reply over the nine-year lead fixture lands
on the Lead row of the table. -/
theorem determineSeniority_invalid_reply_witness :
    determineSeniority (.ok "banana") (2025, 0) [expLead] = .Lead := by
  have h := determineSeniority_invalid_reply "banana" (2025, 0) [expLead] (by decide)
  rw [h.1, expLead_years, show hasLeadershipExperience [expLead] = true from by decide]
  norm_num [seniorityFromYears]

/-- Counterexample to C3: on an outright model failure the catch block of
`determineSeniority` uses a coarser table, not the six-label threshold
table — at nine years with a leadership signal it returns Mid where the
threshold table returns Lead. -/
theorem determineSeniority_failure_counterexample :
    determineSeniority (.error ()) (2025, 0) [expLead] = .Mid
    ∧ seniorityFromYears (calculateTotalExperience (2025, 0) [expLead])
        (hasLeadershipExperience [expLead]) = .Lead
    ∧ SeniorityLevel.Mid ≠ SeniorityLevel.Lead := by
  refine ⟨?_, ?_, by decide⟩
  · unfold determineSeniority
    rw [if_neg (by decide)]
    show seniorityOnFailure (calculateTotalExperience (2025, 0) [expLead]) = .Mid
    rw [expLead_years]
    norm_num [seniorityOnFailure]
  · rw [expLead_years, show hasLeadershipExperience [expLead] = true from by decide]
    norm_num [seniorityFromYears]

/-- Claim C3 (amended): on an outright model failure, `determineSeniority`
falls back to the coarser catch-block table — under 2 years Entry, under 5
years Junior, otherwise Mid — with empty experience still short-circuiting
to Entry. -/
theorem determineSeniority_failure_fallback (today : Nat × Nat)
    (exps : List ExperienceSection) :
    determineSeniority (.error ()) today exps
      = (if exps.isEmpty then .Entry
         else seniorityOnFailure (calculateTotalExperience today exps))
    ∧ seniorityOnFailure 1 = .Entry
    ∧ seniorityOnFailure 3 = .Junior
    ∧ seniorityOnFailure 9 = .Mid := by
  refine ⟨?_, by norm_num [seniorityOnFailure], by norm_num [seniorityOnFailure],
    by norm_num [seniorityOnFailure]⟩
  unfold determineSeniority
  cases he : exps.isEmpty <;> simp [he]

/-- Claim C10: `calculateTotalExperience` is total — the empty list yields
exactly 0, an entry whose start or end date fails to parse contributes
zero months, the appended `-01` makes a bare-year start date read as
January of that year, and a fully parsed bare-year entry contributes its
exact month span. -/
theorem calcTotal_total_dates :
    (∀ today : Nat × Nat, calculateTotalExperience today [] = 0)
    ∧ (∀ (today : Nat × Nat) (e : ExperienceSection),
        jsDateYM (e.startDate ++ "-01") = none → entryMonths today e = 0)
    ∧ (∀ (today : Nat × Nat) (e : ExperienceSection) (d : String),
        e.endDate = some d → jsDateYM (d ++ "-01") = none → entryMonths today e = 0)
    ∧ jsDateYM ("2020" ++ "-01") = some (2020, 0)
    ∧ (∀ (today : Nat × Nat) (e : ExperienceSection),
        e.startDate = "2020" → e.endDate = some "2023-07" → entryMonths today e = 42) := by
  refine ⟨fun today => rfl, ?_, ?_, rfl, ?_⟩
  · intro today e h
    unfold entryMonths
    rw [h]
  · intro today e d hd h
    cases hs : jsDateYM (e.startDate ++ "-01") <;> simp [entryMonths, hs, hd, h]
  · intro today e h1 h2
    unfold entryMonths
    rw [h1, h2]
    rfl

/-- Witness for C10: the malformed-date entry contributes nothing and the
bare-year entry contributes its exact span. -/
theorem calcTotal_total_dates_witness :
    entryMonths (2025, 0) badDates = 0 ∧ entryMonths (2025, 0) bareYearEntry = 42 :=
  ⟨calcTotal_total_dates.2.1 (2025, 0) badDates (by rfl),
   calcTotal_total_dates.2.2.2.2 (2025, 0) bareYearEntry rfl rfl⟩

/-- For any non-null input, the skill-set normalizer succeeds with the
cleaned record. -/
theorem validateAndCleanSkillSet_ok (v : JsVal) (hv : v ≠ .null) :
    validateAndCleanSkillSet v = .ok (cleanSkillSetCore v) := by
  cases v
  case null => exact absurd rfl hv
  all_goals rfl

/-- A raw skill-set payload with a kept empty-string name. -/
def rawEmptyNameSkills : JsVal :=
  .obj [("technical", .arr [.obj [("name", .str "")]])]

/-- Counterexample to C4: the skill-set normalizer throws on a JSON null
input rather than never throwing, and a record whose name is the empty
string is kept, so a kept record can have an empty required field. -/
theorem normalizers_counterexample :
    validateAndCleanSkillSet JsVal.null = .error ()
    ∧ Except.map (fun s => s.technical.map TechnicalSkill.name)
        (validateAndCleanSkillSet rawEmptyNameSkills) = .ok [""] :=
  ⟨rfl, rfl⟩

/-- Claim C4 (amended): for every decoded value other than JSON null, the
skill-set normalizer does not throw and every kept record has its enum
field in the valid proficiency set; every question the question normalizer
keeps has the requested type, a concrete difficulty, nonempty trimmed text
and a truthy identifier; every experience, education and project record the
extractors emit has a nonempty (truthy) identifier, generated when the
source omits one; and a non-array value where an array was expected yields
the empty list — for each skill container, for the question list, and for
the three array extractors. Records lacking a string name or string
question text are dropped, but an empty-string skill name passes the
filter. -/
theorem normalizers_spec (v q : JsVal) (ty : QType) (target : Option Difficulty)
    (gen : Nat → String) (hv : v ≠ .null) (hgen : ∀ k, gen k ≠ "") :
    (∃ s, validateAndCleanSkillSet v = .ok s
        ∧ (∀ t ∈ s.technical, validProficiencies.contains t.proficiencyLevel = true)
        ∧ (∀ t ∈ s.languages, validProficiencies.contains t.proficiencyLevel = true)
        ∧ (∀ t ∈ s.frameworks, validProficiencies.contains t.proficiencyLevel = true)
        ∧ (∀ t ∈ s.tools, validProficiencies.contains t.proficiencyLevel = true)
        ∧ ((∀ xs, getField v "technical" ≠ some (JsVal.arr xs)) → s.technical = []))
    ∧ (∀ qq ∈ validateAndCleanQuestions q ty target gen,
        qq.type = ty ∧ qq.difficulty ≠ .Mixed ∧ qq.question ≠ ""
          ∧ jsTruthy qq.id = true)
    ∧ ((∀ xs, q ≠ JsVal.arr xs) → validateAndCleanQuestions q ty target gen = [])
    ∧ (∀ oE : Except Unit (DecodedArray ExperienceSection),
        ∀ e ∈ extractExperience oE gen, e.id ≠ "")
    ∧ extractExperience (.ok .nonArray) gen = []
    ∧ (∀ oEd : Except Unit (DecodedArray EducationSection),
        ∀ e ∈ extractEducation oEd gen, e.id ≠ "")
    ∧ extractEducation (.ok .nonArray) gen = []
    ∧ (∀ oP : Except Unit (DecodedArray ProjectSection),
        ∀ e ∈ extractProjects oP gen, e.id ≠ "")
    ∧ extractProjects (.ok .nonArray) gen = [] := by
  refine ⟨⟨cleanSkillSetCore v, validateAndCleanSkillSet_ok v hv, ?_, ?_, ?_, ?_, ?_⟩,
    ?_, ?_, fun oE => extractExperience_ids oE gen hgen, rfl,
    fun oEd => extractEducation_ids oEd gen hgen, rfl,
    fun oP => extractProjects_ids oP gen hgen, rfl⟩
  · intro t ht
    obtain ⟨x, -, rfl⟩ := List.mem_map.mp ht
    exact cleanProficiency_valid x
  · intro t ht
    obtain ⟨x, -, rfl⟩ := List.mem_map.mp ht
    exact cleanProficiency_valid x
  · intro t ht
    obtain ⟨x, -, rfl⟩ := List.mem_map.mp ht
    exact cleanProficiency_valid x
  · intro t ht
    obtain ⟨x, -, rfl⟩ := List.mem_map.mp ht
    exact cleanProficiency_valid x
  · intro hna
    have hA : arrayField v "technical" = [] := arrayField_eq_nil v "technical" hna
    simp [cleanSkillSetCore, hA]
  · intro qq hm
    obtain ⟨h1, h2, h3⟩ := mem_validateAndCleanQuestions hm
    exact ⟨h1, h2, h3, mem_validateAndCleanQuestions_id hgen hm⟩
  · intro hna
    cases q
    case arr xs => exact absurd rfl (hna xs)
    all_goals rfl

/-- Witness for C4 applied at a concrete object payload, a concrete
non-array question payload, a concrete non-array extractor reply, and the
concrete generator. -/
theorem normalizers_spec_witness :
    validateAndCleanQuestions (JsVal.num 3) QType.technical none genDefault = []
    ∧ extractExperience (.ok .nonArray) genDefault = [] := by
  have h := normalizers_spec
    (JsVal.obj [("technical", JsVal.arr [JsVal.obj [("name", JsVal.str "SQL")]])])
    (JsVal.num 3) .technical none genDefault
    (fun hx => JsVal.noConfusion hx) (fun _ => show "g" ≠ "" by decide)
  exact ⟨h.2.2.1 (fun xs hx => JsVal.noConfusion hx), h.2.2.2.2.1⟩

/-- Counterexample to C5: on a reply holding two separate JSON objects with
junk between them, the decoder raises a malformed-response error (the
greedy first-to-last-brace span does not parse), while the policy described
by the spec — parse the first top-level balanced object — succeeds. -/
theorem structuredParse_counterexample :
    generateStructuredResponseParse "x \x7b\"a\": 1\x7d y \x7b\"b\": 2\x7d" = .error ()
    ∧ specStructuredResponseParse "x \x7b\"a\": 1\x7d y \x7b\"b\": 2\x7d"
        = .ok (.obj [("a", .num 1)]) :=
  ⟨rfl, rfl⟩

/-- Claim C5 (amended): the structured-response decoder first attempts a
direct JSON parse; on failure it extracts the span from the first opening
brace through the last closing brace of the text (one greedy regex match,
not the first balanced object) and parses that; only if that also fails —
or no such span exists — does it raise a malformed-response error. -/
theorem structuredParse_policy (s sub : String) (v w : JsVal) :
    (jsonParse s = some v → generateStructuredResponseParse s = .ok v)
    ∧ (jsonParse s = none → greedyObjectSpan s = some sub → jsonParse sub = some w →
        generateStructuredResponseParse s = .ok w)
    ∧ (jsonParse s = none →
        (∀ t, greedyObjectSpan s = some t → jsonParse t = none) →
        generateStructuredResponseParse s = .error ()) := by
  refine ⟨?_, ?_, ?_⟩
  · intro h
    simp [generateStructuredResponseParse, h]
  · intro h1 h2 h3
    simp [generateStructuredResponseParse, h1, h2, h3]
  · intro h1 h2
    cases hg : greedyObjectSpan s with
    | none => simp [generateStructuredResponseParse, h1, hg]
    | some t => simp [generateStructuredResponseParse, h1, hg, h2 t hg]

/-- Witness for C5: a direct parse success and a no-brace failure. -/
theorem structuredParse_policy_witness :
    generateStructuredResponseParse "7" = .ok (.num 7)
    ∧ generateStructuredResponseParse "nope" = .error () :=
  ⟨(structuredParse_policy "7" "" (.num 7) .null).1 rfl,
   (structuredParse_policy "nope" "" .null .null).2.2 rfl
     (fun t h => by
       rw [show greedyObjectSpan "nope" = none from rfl] at h
       exact Option.noConfusion h)⟩

/-- The select stage returns `min(pool, requested)` questions, all drawn
from the pool, for any shuffle that permutes its input. -/
theorem selectQuestions_spec (shuffle : List Question → List Question)
    (qs : List Question) (count : Nat) (hsh : ∀ l, (shuffle l).Perm l) :
    (selectQuestions shuffle qs count).length = min qs.length count
    ∧ ∀ x ∈ selectQuestions shuffle qs count, x ∈ qs := by
  unfold selectQuestions
  split
  · next hle => exact ⟨(Nat.min_eq_left hle).symm, fun x hx => hx⟩
  · next hgt =>
    constructor
    · rw [List.length_take, (hsh qs).length_eq, Nat.min_comm]
    · intro x hx
      exact ((hsh qs).mem_iff).mp (List.mem_of_mem_take hx)

/-- A raw model reply holding two questions that share the identifier
string "a". -/
def rawDupIds : JsVal :=
  .arr [.obj [("id", .str "a"), ("question", .str "x")],
        .obj [("id", .str "a"), ("question", .str "y")]]

/-- Every question the merge-and-select stage returns is technical with a
concrete difficulty, for any shuffle that permutes its input. -/
theorem mem_technicalQuestionsCore (outcomes : List (Except Unit JsVal))
    (count : Nat) (difficulty : Difficulty) (gen : Nat → Nat → String)
    (shuffle : List Question → List Question) (hsh : ∀ l, (shuffle l).Perm l)
    {qq : Question}
    (hq : qq ∈ generateTechnicalQuestionsCore outcomes count difficulty gen shuffle) :
    qq.type = .technical ∧ qq.difficulty ≠ .Mixed := by
  have hq2 := (selectQuestions_spec shuffle
    ((mapWithIndex (fun i o => categoryQuestions o difficulty (gen i)) 0
      outcomes).flatten) count hsh).2 qq hq
  obtain ⟨l0, hl0, hql⟩ := List.mem_flatten.mp hq2
  obtain ⟨j, o, -, rfl⟩ := mem_mapWithIndex hl0
  unfold categoryQuestions at hql
  cases o with
  | ok raw =>
    exact ⟨(mem_validateAndCleanQuestions hql).1,
      (mem_validateAndCleanQuestions hql).2.1⟩
  | error e => cases hql

/-- A one-entry skill set that makes the merged skill-reference list
nonempty. -/
def oneSkillSet : SkillSet :=
  { technical :=
      [{ name := "SQL"
         category := .str "Database"
         proficiencyLevel := "Intermediate"
         yearsOfExperience := none }]
    soft := [], languages := [], frameworks := [], tools := [] }

/-- Counterexample to C6: nothing deduplicates model-supplied identifiers —
a reply carrying two questions with the same id yields a result whose
identifier list is not duplicate-free — and on the empty-skills path the
general-call pool is returned whole without down-sampling, so the result
length exceeds the requested count instead of equalling
min(requested, producible). -/
theorem technicalQuestions_counterexample :
    ((generateTechnicalQuestionsCore [.ok rawDupIds] 5 .Intermediate
        (fun _ => genDefault) id).map Question.id)
      = [.str "a", .str "a"]
    ∧ ¬ ((generateTechnicalQuestionsCore [.ok rawDupIds] 5 .Intermediate
        (fun _ => genDefault) id).map Question.id).Nodup
    ∧ allTechnicalSkills emptySkillSet = []
    ∧ (generateTechnicalQuestions emptySkillSet 1 .Intermediate (.ok rawDupIds) []
        (fun _ => genDefault) genDefault id).length = 2
    ∧ (2 : Nat) ≠ min 1 2 := by
  refine ⟨rfl, ?_, rfl, rfl, by decide⟩
  intro hnd
  rw [show ((generateTechnicalQuestionsCore [.ok rawDupIds] 5 .Intermediate
      (fun _ => genDefault) id).map Question.id) = [JsVal.str "a", JsVal.str "a"]
    from rfl] at hnd
  exact (List.nodup_cons.mp hnd).1 (List.mem_singleton_self _)

/-- Claim C6 (amended): when the merged skill-reference list is nonempty,
technical question generation fans out per category and returns exactly
`min(requested, producible)` questions — a merged pool within the requested
count is returned whole, a larger pool is down-sampled to the requested
count; when the skill list is entirely empty, the single general call's
cleaned pool is returned whole without down-sampling, so it can exceed the
requested count. On both paths every returned question has the technical
type and a concrete difficulty, never Mixed; identifiers are kept verbatim
from the model output when present, so duplicates can occur. -/
theorem technicalQuestions_spec (skills : SkillSet) (count : Nat)
    (difficulty : Difficulty) (generalOutcome : Except Unit JsVal)
    (outcomes : List (Except Unit JsVal)) (gen : Nat → Nat → String)
    (genG : Nat → String) (shuffle : List Question → List Question)
    (hsh : ∀ l, (shuffle l).Perm l) :
    ((allTechnicalSkills skills).length ≠ 0 →
      generateTechnicalQuestions skills count difficulty generalOutcome outcomes
          gen genG shuffle
        = generateTechnicalQuestionsCore outcomes count difficulty gen shuffle
      ∧ (generateTechnicalQuestionsCore outcomes count difficulty gen shuffle).length
        = min ((mapWithIndex (fun i o => categoryQuestions o difficulty (gen i)) 0
            outcomes).flatten).length count)
    ∧ ((allTechnicalSkills skills).length = 0 →
      generateTechnicalQuestions skills count difficulty generalOutcome outcomes
          gen genG shuffle
        = generateGeneralTechnicalQuestions generalOutcome difficulty genG)
    ∧ (∀ qq ∈ generateTechnicalQuestions skills count difficulty generalOutcome
        outcomes gen genG shuffle,
        qq.type = .technical ∧ qq.difficulty ≠ .Mixed) := by
  refine ⟨?_, ?_, ?_⟩
  · intro h
    have hb : ((allTechnicalSkills skills).length == 0) = false := by simpa using h
    constructor
    · simp [generateTechnicalQuestions, hb]
    · exact (selectQuestions_spec shuffle
        ((mapWithIndex (fun i o => categoryQuestions o difficulty (gen i)) 0
          outcomes).flatten) count hsh).1
  · intro h
    have hb : ((allTechnicalSkills skills).length == 0) = true := by simpa using h
    simp [generateTechnicalQuestions, hb]
  · intro qq hq
    by_cases hz : (allTechnicalSkills skills).length = 0
    · have hb : ((allTechnicalSkills skills).length == 0) = true := by simpa using hz
      rw [show generateTechnicalQuestions skills count difficulty generalOutcome
          outcomes gen genG shuffle
          = generateGeneralTechnicalQuestions generalOutcome difficulty genG
        from by simp [generateTechnicalQuestions, hb]] at hq
      unfold generateGeneralTechnicalQuestions at hq
      cases generalOutcome with
      | ok raw =>
        exact ⟨(mem_validateAndCleanQuestions hq).1,
          (mem_validateAndCleanQuestions hq).2.1⟩
      | error e => exact absurd hq (List.not_mem_nil qq)
    · have hb : ((allTechnicalSkills skills).length == 0) = false := by simpa using hz
      rw [show generateTechnicalQuestions skills count difficulty generalOutcome
          outcomes gen genG shuffle
          = generateTechnicalQuestionsCore outcomes count difficulty gen shuffle
        from by simp [generateTechnicalQuestions, hb]] at hq
      exact mem_technicalQuestionsCore outcomes count difficulty gen shuffle hsh hq

/-- Witness for C6: a one-skill input routes to the category path, where a
two-question pool and a requested count of one give exactly one question. -/
theorem technicalQuestions_spec_witness :
    (generateTechnicalQuestions oneSkillSet 1 .Intermediate (.error ())
      [.ok rawDupIds] (fun _ => genDefault) genDefault id).length = 1 := by
  have h := technicalQuestions_spec oneSkillSet 1 .Intermediate (.error ())
    [.ok rawDupIds] (fun _ => genDefault) genDefault id (fun l => List.Perm.refl l)
  have h2 := h.1 (by decide)
  rw [h2.1, h2.2]
  rfl

/-- Counterexample to C7: for the in-range request of six behavioral
questions, total generation failure returns only the five hardcoded
questions — the fallback list is truncated, never repeated, so the caller
does not receive exactly the requested count. -/
theorem behavioralFallback_counterexample :
    (1 ≤ 6 ∧ 6 ≤ 50)
    ∧ (generateBehavioralQuestions [] 6 (.error ()) (.error ()) genDefault).length = 5
    ∧ (5 : Nat) ≠ 6 :=
  ⟨by decide, rfl, by decide⟩

/-- Claim C7 (amended): when behavioral generation fails outright at every
stage, the caller receives the fixed hardcoded list truncated to the
requested count — `min(requested, 5)` questions, in the fixed order, all
behavioral with Intermediate difficulty; a request above five is not padded
by repetition. -/
theorem behavioralFallback_spec (exps : List ExperienceSection) (count : Nat)
    (gen : Nat → String) :
    generateBehavioralQuestions exps count (.error ()) (.error ()) gen
      = getFallbackBehavioralQuestions gen count
    ∧ (getFallbackBehavioralQuestions gen count).length = min count 5
    ∧ (getFallbackBehavioralQuestions gen count).map Question.question
        = (fallbackBehavioralList.take count).map Prod.fst
    ∧ ∀ qq ∈ getFallbackBehavioralQuestions gen count,
        qq.type = .behavioral ∧ qq.difficulty = .Intermediate := by
  refine ⟨?_, ?_, ?_, ?_⟩
  · unfold generateBehavioralQuestions generateGeneralBehavioralQuestions
    cases he : exps.isEmpty <;> simp [he]
  · unfold getFallbackBehavioralQuestions
    rw [length_mapWithIndex, List.length_take]
    rfl
  · unfold getFallbackBehavioralQuestions
    have haux : ∀ (i : Nat) (l : List (String × String)),
        (mapWithIndex (fun i p =>
          ({ id := .str (gen i), type := .behavioral, difficulty := .Intermediate,
             question := p.1, category := .str p.2,
             suggestedAnswerFramework := .str (getDefaultFramework .behavioral),
             relatedSkills := [.str "Communication", .str "Problem Solving"],
             estimatedTime := .str "3-5 minutes" } : Question)) i l).map Question.question
          = l.map Prod.fst := by
      intro i l
      induction l generalizing i with
      | nil => rfl
      | cons p ps ih => simp [mapWithIndex, ih]
    exact haux 0 _
  · intro qq hq
    obtain ⟨j, p, -, rfl⟩ := mem_mapWithIndex hq
    exact ⟨rfl, rfl⟩

/-- A roadmap step fixture carrying only a time estimate. -/
def mkStep (t : String) : RoadmapStep :=
  { id := "", title := "", description := "", skills := [],
    estimatedTime := t, priority := "Medium" }

/-- Counterexample to C8: the empty step list — on which trivially no
estimate parses — returns the fixed "6 months", not the claimed
"6-12 months". -/
theorem timeline_counterexample :
    calculateTimelineEstimate [] = "6 months" ∧ "6 months" ≠ "6-12 months" :=
  ⟨rfl, by decide⟩

/-- Claim C8 (amended): for a nonempty step list in which no estimate
parses, the timeline is the fixed "6-12 months" (the empty list returns
"6 months" instead); an unparseable step can be dropped anywhere without
changing the aggregate; and the documented example — 2 months, 3 weeks,
1 month — aggregates to "4 months" via the ceiling week conversion. -/
theorem timeline_spec (steps pre post : List RoadmapStep) (st : RoadmapStep)
    (hne : steps ≠ [])
    (hall : ∀ s ∈ steps, firstTimeMatch s.estimatedTime.toList = none)
    (hbad : firstTimeMatch st.estimatedTime.toList = none)
    (hne2 : pre ++ post ≠ []) :
    calculateTimelineEstimate steps = "6-12 months"
    ∧ calculateTimelineEstimate (pre ++ st :: post)
        = calculateTimelineEstimate (pre ++ post)
    ∧ calculateTimelineEstimate [mkStep "2 months", mkStep "3 weeks", mkStep "1 month"]
        = "4 months" := by
  refine ⟨?_, ?_, by decide⟩
  · have hc : steps.filterMap (fun s => firstTimeMatch s.estimatedTime.toList) = [] :=
      List.filterMap_eq_nil_iff.mpr hall
    simp only [calculateTimelineEstimate]
    rw [if_neg (fun hEmpty => hne (List.isEmpty_iff.mp hEmpty)), hc]
    rfl
  · have hfm : (pre ++ st :: post).filterMap
        (fun s => firstTimeMatch s.estimatedTime.toList)
        = (pre ++ post).filterMap (fun s => firstTimeMatch s.estimatedTime.toList) := by
      rw [List.filterMap_append, List.filterMap_append, List.filterMap_cons, hbad]
    have h1e : ¬ ((pre ++ st :: post).isEmpty = true) := by
      simp [List.isEmpty_iff]
    have h2e : ¬ ((pre ++ post).isEmpty = true) := by
      simp [List.isEmpty_iff, hne2]
    simp only [calculateTimelineEstimate]
    rw [if_neg h1e, if_neg h2e, hfm]

/-- Witness for C8 at concrete step lists. -/
theorem timeline_spec_witness :
    calculateTimelineEstimate [mkStep "soon"] = "6-12 months"
    ∧ calculateTimelineEstimate ([mkStep "2 months"] ++ mkStep "later" :: [])
        = calculateTimelineEstimate ([mkStep "2 months"] ++ [])
    ∧ calculateTimelineEstimate [mkStep "2 months", mkStep "3 weeks", mkStep "1 month"]
        = "4 months" :=
  timeline_spec [mkStep "soon"] [mkStep "2 months"] [] (mkStep "later")
    (by decide)
    (by intro s hs; rcases List.mem_singleton.mp hs with rfl; rfl)
    rfl
    (by decide)

/-- Claim C9: when the skills extraction fails while the other branches
carry their own outcomes, `analyzeResume` still assembles a full result —
no exception propagates — with the empty skill-set shape in the skills
slot and every other field computed from its own branch alone. -/
theorem analyzeResume_soft_fail (newId : String) (today : Nat × Nat)
    (gen : Nat → String) (oPersonal : Except Unit JsVal)
    (oExperience : Except Unit (DecodedArray ExperienceSection))
    (oEducation : Except Unit (DecodedArray EducationSection))
    (oProjects : Except Unit (DecodedArray ProjectSection))
    (oSeniority oSummary : Except Unit String) :
    (analyzeResume newId today gen oPersonal (.error ()) oExperience oEducation
        oProjects oSeniority oSummary).skills = emptySkillSet
    ∧ (analyzeResume newId today gen oPersonal (.error ()) oExperience oEducation
        oProjects oSeniority oSummary).personalInfo = extractPersonalInfo oPersonal
    ∧ (analyzeResume newId today gen oPersonal (.error ()) oExperience oEducation
        oProjects oSeniority oSummary).experience = extractExperience oExperience gen
    ∧ (analyzeResume newId today gen oPersonal (.error ()) oExperience oEducation
        oProjects oSeniority oSummary).education = extractEducation oEducation gen
    ∧ (analyzeResume newId today gen oPersonal (.error ()) oExperience oEducation
        oProjects oSeniority oSummary).projects = extractProjects oProjects gen
    ∧ (analyzeResume newId today gen oPersonal (.error ()) oExperience oEducation
        oProjects oSeniority oSummary).careerSummary = generateCareerSummary oSummary
    ∧ (analyzeResume newId today gen oPersonal (.error ()) oExperience oEducation
        oProjects oSeniority oSummary).seniorityLevel
        = determineSeniority oSeniority today (extractExperience oExperience gen)
    ∧ (analyzeResume newId today gen oPersonal (.error ()) oExperience oEducation
        oProjects oSeniority oSummary).totalExperienceYears
        = calculateTotalExperience today (extractExperience oExperience gen) :=
  ⟨rfl, rfl, rfl, rfl, rfl, rfl, rfl, rfl⟩

end ResumeAnalyzer
